import Mathlib

/-!
Verification development for the Reddit scraping engine in
`src/reddit_scraper.py` (class `RedditScraper`).

The Python source is shallowly embedded below.  Strings are modelled as
lists of characters (`Str`), so that Python's string primitives
(`in`, `startswith`, `replace`, `strip`, `lower`, `split`, `re.sub` with a
character class) become structurally recursive Lean functions that can be
reasoned about by induction.  Python `float` on decimal score literals is
modelled as IEEE-754 binary64 arithmetic: the literal's exact value
`N / D` is rounded to a 53-bit dyadic (round-to-nearest, ties to even),
the product with the suffix multiplier is correctly rounded again, and
`int(...)` truncates toward zero (`intOfFloatMul`).  Randomized values
(`random.uniform(a, b)`) are modelled as
`uniformQ a b u` for a jitter parameter `u ∈ [0, 1]`, and `random.choice`
as indexing by a supplied index.  BeautifulSoup element lookups become
explicit input fields of the element structures (the DOM itself is not
modelled; each locator's result is an input).
-/

/-- Python strings modelled as lists of characters. -/
abbrev Str := List Char

/-- Turn a Lean string literal into the `Str` model. -/
def str (s : String) : Str := s.data

/-- Model of the regex class `\d` (ASCII digits; inputs of interest are ASCII). -/
def isDigitC (c : Char) : Bool :=
  decide (48 ≤ c.toNat) && decide (c.toNat ≤ 57)

/-- ASCII model of Python `str.lower` on one character. -/
def asciiLower (c : Char) : Char :=
  if 65 ≤ c.toNat ∧ c.toNat ≤ 90 then Char.ofNat (c.toNat + 32) else c

/-- ASCII model of Python `str.lower`. -/
def lowerStr (s : Str) : Str := s.map asciiLower

/-- Whitespace characters stripped by Python `str.strip` (ASCII fragment). -/
def isSpaceC (c : Char) : Bool :=
  c == ' ' || c == '\t' || c == '\n' || c == '\r'

/-- Model of Python `str.strip()`. -/
def pyStrip (s : Str) : Str :=
  ((s.dropWhile isSpaceC).reverse.dropWhile isSpaceC).reverse

/-- Model of Python `str.startswith`: `startsWithStr n h` is `h.startswith(n)`. -/
def startsWithStr : Str → Str → Bool
  | [], _ => true
  | _ :: _, [] => false
  | a :: as, b :: bs => a == b && startsWithStr as bs

/-- Model of Python `n in h` on strings (contiguous substring test). -/
def isSubstr (n : Str) : Str → Bool
  | [] => startsWithStr n []
  | c :: rest => startsWithStr n (c :: rest) || isSubstr n rest

/-- Model of Python `k in s` for a single character `k`. -/
def containsChar (s : Str) (k : Char) : Bool := s.any (· == k)

/-- Model of Python `s.replace(k, '')` for a single character `k`. -/
def removeChar (s : Str) (k : Char) : Str := s.filter (fun c => !(c == k))

/-- Model of Python `re.sub(r'[^\d]', '', s)`. -/
def stripNonDigits (s : Str) : Str := s.filter isDigitC

/-- Numeric value of a nonempty all-digit string, `none` otherwise. -/
def digitsVal? (s : Str) : Option Nat :=
  if s.isEmpty then none
  else if s.all isDigitC then
    some (s.foldl (fun a c => a * 10 + (c.toNat - 48)) 0)
  else none

/-- Model of Python `s.split(k)` for a single-character separator. -/
def splitOnChar (k : Char) : Str → List Str
  | [] => [[]]
  | c :: rest =>
    let r := splitOnChar k rest
    if c == k then [] :: r
    else
      match r with
      | [] => [[c]]
      | h :: t => (c :: h) :: t

/-- Model of Python `s.split(k)[-1]`. -/
def splitLast (k : Char) (s : Str) : Str :=
  ((splitOnChar k s).getLast?).getD []

/-- The exact rational value of an unsigned decimal literal, as a
numerator/denominator pair; `float(s)` itself is `roundDouble` of this
pair.  Accepted shapes: `digits`, `digits.digits`, `digits.`, `.digits`.
Anything else yields `none`, matching `float` raising `ValueError` (the
score texts never carry the sign, exponent, underscore or inf/nan
spellings `float` would also accept, so those are not modelled). -/
def parseDecimalND (s : Str) : Option (Nat × Nat) :=
  match splitOnChar '.' s with
  | [a] => (digitsVal? a).map (fun n => (n, 1))
  | [a, b] =>
    if a.isEmpty then
      (digitsVal? b).map (fun f => (f, 10 ^ b.length))
    else if b.isEmpty then
      (digitsVal? a).map (fun n => (n, 1))
    else
      match digitsVal? a, digitsVal? b with
      | some n, some f => some (n * 10 ^ b.length + f, 10 ^ b.length)
      | _, _ => none
  | _ => none

/-- Fuel-driven binary logarithm: `log2F fuel n` is `⌊log₂ n⌋` whenever
`1 ≤ n ≤ fuel` (and `0` for `n ≤ 1`).  The explicit fuel keeps the
recursion structural, so the kernel can evaluate it on concrete inputs. -/
def log2F : Nat → Nat → Nat
  | 0, _ => 0
  | fuel + 1, n => if 2 ≤ n then log2F fuel (n / 2) + 1 else 0

/-- `⌊log₂ n⌋` for `n ≥ 1` (and `0` at `0`). -/
def log2N (n : Nat) : Nat := log2F n n

/-- A nonnegative dyadic rational `m · 2^e` — the value of a binary64
float.  Rounding results are normalized: `2^52 ≤ m < 2^53`, or `m = 0`. -/
structure Dyadic where
  m : Nat
  e : Int
deriving DecidableEq

/-- Round `a / b` (for `b > 0`) to the nearest integer, ties to even: the
final rounding step of IEEE-754 round-to-nearest-even. -/
def roundMantissa (a b : Nat) : Nat :=
  let q := a / b
  let r := a % b
  if 2 * r < b then q
  else if b < 2 * r then q + 1
  else if q % 2 = 0 then q else q + 1

/-- `⌊log₂ (N / D)⌋` for naturals `N, D ≥ 1`. -/
def floorLog2Q (N D : Nat) : Int :=
  let g : Int := (log2N N : Int) - (log2N D : Int)
  if D * 2 ^ g.toNat ≤ N * 2 ^ (-g).toNat then g else g - 1

/-- Round the rational `N / D` (`D > 0`) to the nearest IEEE-754 binary64
value (round-to-nearest, ties to even), as a normalized dyadic: the model
of CPython's correctly rounded `float(<decimal literal>)`.  Score texts
keep values far inside the normal range, so overflow to infinity and
subnormal underflow are outside the modelled domain. -/
def roundDouble (N D : Nat) : Dyadic :=
  if N = 0 then ⟨0, 0⟩
  else
    let e := floorLog2Q N D
    let s : Int := 52 - e
    let m := roundMantissa (N * 2 ^ s.toNat) (D * 2 ^ (-s).toNat)
    if m = 2 ^ 53 then ⟨2 ^ 52, e - 51⟩ else ⟨m, e - 52⟩

/-- Binary64 multiplication of a float by a natural constant (Python
`float * int` promotes the int — 1000 and 1000000 are exactly
representable — and rounds the product): the exact product is re-rounded
to 53 bits. -/
def mulDouble (x : Dyadic) (k : Nat) : Dyadic :=
  roundDouble (x.m * k * 2 ^ x.e.toNat) (2 ^ (-x.e).toNat)

/-- Python `int()` on a nonnegative float value: truncation toward zero. -/
def truncDyadic (x : Dyadic) : Nat :=
  x.m * 2 ^ x.e.toNat / 2 ^ (-x.e).toNat

/-- Python `int(float(s) * mult)` where the literal `s` has exact value
`N / D`: correctly rounded conversion, correctly rounded product,
truncation toward zero. -/
def intOfFloatMul (N D mult : Nat) : Nat :=
  truncDyadic (mulDouble (roundDouble N D) mult)

/-- Model of Python `int(s)` on strings: optional surrounding whitespace,
optional sign, then digits (underscore separators are not modelled). -/
def pyIntParse (s : Str) : Option Int :=
  match pyStrip s with
  | '-' :: ds => (digitsVal? ds).map (fun n => -(n : Int))
  | '+' :: ds => (digitsVal? ds).map (fun n => (n : Int))
  | ds => (digitsVal? ds).map (fun n => (n : Int))

/-- Model of `random.uniform a b` as `a + u * (b - a)` for jitter `u ∈ [0, 1]`. -/
def uniformQ (a b u : ℚ) : ℚ := a + u * (b - a)

/-!
Data model: the record dictionaries built by `_parse_old_reddit`,
`_parse_new_reddit` and `_fetch_thread_details`.
-/

/-- Comment dictionaries built inside `_fetch_thread_details`. -/
structure CommentRecord where
  comment_id : Str
  author : Str
  body : Str
  score : Int
  is_op : Bool
deriving DecidableEq

/-- Thread dictionaries built by the listing parsers.  `created_utc` is the
placeholder timestamp `datetime.datetime.now()`, modelled as a `Nat`. -/
structure ThreadRecord where
  id : Str
  title : Str
  subreddit : Str
  score : Int
  num_comments : Int
  created_utc : Nat
  permalink : Str
  url : Str
  selftext : Str
  top_comments : List CommentRecord
deriving DecidableEq

/-!
HeaderProfileSource: `_get_random_user_agent` and `_get_browser_headers`.
`random.choice` is modelled by indexing with a supplied index modulo the
list length (the pair of indices is the random state of one fetch).
-/

/-- The user-agent pool of `_get_random_user_agent`. -/
def userAgents : List Str :=
  [str "Mozilla/5.0 (Windows NT 10.0; Win64; x64) AppleWebKit/537.36 (KHTML, like Gecko) Chrome/91.0.4472.124 Safari/537.36",
   str "Mozilla/5.0 (Windows NT 10.0; Win64; x64) AppleWebKit/537.36 (KHTML, like Gecko) Chrome/92.0.4515.159 Safari/537.36",
   str "Mozilla/5.0 (Windows NT 10.0; Win64; x64) AppleWebKit/537.36 (KHTML, like Gecko) Chrome/94.0.4606.81 Safari/537.36",
   str "Mozilla/5.0 (Windows NT 10.0; Win64; x64) AppleWebKit/537.36 (KHTML, like Gecko) Chrome/95.0.4638.69 Safari/537.36",
   str "Mozilla/5.0 (Windows NT 10.0; Win64; x64; rv:90.0) Gecko/20100101 Firefox/90.0",
   str "Mozilla/5.0 (Windows NT 10.0; Win64; x64; rv:91.0) Gecko/20100101 Firefox/91.0",
   str "Mozilla/5.0 (Windows NT 10.0; Win64; x64; rv:92.0) Gecko/20100101 Firefox/92.0",
   str "Mozilla/5.0 (Windows NT 10.0; Win64; x64; rv:93.0) Gecko/20100101 Firefox/93.0",
   str "Mozilla/5.0 (Windows NT 10.0; Win64; x64) AppleWebKit/537.36 (KHTML, like Gecko) Chrome/92.0.4515.159 Safari/537.36 Edg/92.0.902.78",
   str "Mozilla/5.0 (Windows NT 10.0; Win64; x64) AppleWebKit/537.36 (KHTML, like Gecko) Chrome/93.0.4577.63 Safari/537.36 Edg/93.0.961.38",
   str "Mozilla/5.0 (Macintosh; Intel Mac OS X 10_15_7) AppleWebKit/605.1.15 (KHTML, like Gecko) Version/14.1.2 Safari/605.1.15",
   str "Mozilla/5.0 (Macintosh; Intel Mac OS X 10_15_7) AppleWebKit/605.1.15 (KHTML, like Gecko) Version/15.0 Safari/605.1.15",
   str "Mozilla/5.0 (Macintosh; Intel Mac OS X 10_15_7) AppleWebKit/537.36 (KHTML, like Gecko) Chrome/91.0.4472.114 Safari/537.36",
   str "Mozilla/5.0 (Macintosh; Intel Mac OS X 10_15_7) AppleWebKit/537.36 (KHTML, like Gecko) Chrome/92.0.4515.131 Safari/537.36",
   str "Mozilla/5.0 (Macintosh; Intel Mac OS X 10.15; rv:90.0) Gecko/20100101 Firefox/90.0",
   str "Mozilla/5.0 (Macintosh; Intel Mac OS X 10.15; rv:91.0) Gecko/20100101 Firefox/91.0"]

/-- The Accept-Language pool of `_get_browser_headers`. -/
def acceptLanguages : List Str :=
  [str "en-US,en;q=0.9",
   str "en-GB,en;q=0.9,en-US;q=0.8",
   str "en;q=0.9,en-US;q=0.8"]

/-- The fixed Accept header of `_get_browser_headers`. -/
def acceptHeaderValue : Str :=
  str "text/html,application/xhtml+xml,application/xml;q=0.9,image/webp,image/apng,*/*;q=0.8,application/signed-exchange;v=b3;q=0.9"

/-- Random choices drawn while building one header dictionary. -/
structure RandState where
  uaIdx : Nat
  langIdx : Nat
deriving DecidableEq

/-- Model of `_get_random_user_agent`: `random.choice(user_agents)`. -/
def getRandomUserAgent (i : Nat) : Str :=
  (userAgents.get? (i % userAgents.length)).getD []

/-- The header fields that vary or identify a browser profile.  Fields absent
from the minimal `{"User-Agent": ...}` dictionary are `none`. -/
structure HeaderProfile where
  userAgent : Str
  acceptLanguage : Option Str
  accept : Option Str
deriving DecidableEq

/-- Model of `_get_browser_headers`. -/
def getBrowserHeaders (rs : RandState) : HeaderProfile :=
  { userAgent := getRandomUserAgent rs.uaIdx
  , acceptLanguage :=
      some ((acceptLanguages.get? (rs.langIdx % acceptLanguages.length)).getD [])
  , accept := some acceptHeaderValue }

/-- The minimal headers dictionary used when `use_browser_headers` is false. -/
def uaOnlyHeaders (rs : RandState) : HeaderProfile :=
  { userAgent := getRandomUserAgent rs.uaIdx
  , acceptLanguage := none
  , accept := none }

/-- The `headers` value bound at the top of `_make_request` (line 186),
before the retry loop. -/
def buildHeaders (useBrowserHeaders : Bool) (rs : RandState) : HeaderProfile :=
  if useBrowserHeaders then getBrowserHeaders rs else uaOnlyHeaders rs

/-- The header dictionary passed to `session.get` on each attempt of one
`_make_request` call: `headers` is computed once before the `for` loop and
the same variable is passed to every `session.get(url, headers=headers, ...)`. -/
def makeRequestHeaders (useBrowserHeaders : Bool) (rs : RandState) (attempts : Nat) :
    List HeaderProfile :=
  List.replicate attempts (buildHeaders useBrowserHeaders rs)

/-!
ResponseClassifier: the branch structure of the `status_code == 200` body
of `_make_request`, as the five-way verdict described by the spec.
-/

/-- Response categories (spec section 4.2). -/
inductive Category where
  | success
  | heavyLoad
  | captchaOrLogin
  | wrongDomain
  | httpError
deriving DecidableEq

/-- One HTTP response as observed by `_make_request`: final URL after
redirects, status code, and the parsed document title (`soup.title`). -/
structure AttemptResponse where
  status : Nat
  finalUrl : Str
  title : Option Str
deriving DecidableEq

/-- Result of one `session.get` call: either a transport-level exception
(timeout, reset, DNS), or a response. -/
inductive AttemptResult where
  | transportError
  | response (r : AttemptResponse)
deriving DecidableEq

/-- The heavy-load marker checked against `response.url` (line 217). -/
def heavyLoadMarker : Str := str "reddit.com/static/heavy-load"

/-- The challenge markers checked against the lowered title (line 226). -/
def captchaMarkers : List Str :=
  [str "captcha", str "human?", str "verify", str "log in", str "sign in"]

/-- Line 226: `any(term in title.lower() for term in [...])`. -/
def titleHasChallengeMarker (title : Str) : Bool :=
  captchaMarkers.any (fun t => isSubstr t (lowerStr title))

/-- Lines 234-238: the `is_reddit_page` check. -/
def isRedditPage (subs : List Str) (title : Str) : Bool :=
  isSubstr (str "reddit") (lowerStr title) ||
  isSubstr (str " : ") title ||
  subs.any (fun sub => isSubstr (lowerStr sub) (lowerStr title))

/-- The title used when `soup.title` is absent: `"No title"` (line 223). -/
def noTitleText : Str := str "No title"

/-- Classification of one response, following the branch order of
`_make_request` lines 207-258. -/
def classify (subs : List Str) (r : AttemptResponse) : Category :=
  if r.status ≠ 200 then Category.httpError
  else if isSubstr heavyLoadMarker r.finalUrl then Category.heavyLoad
  else
    let title := r.title.getD noTitleText
    if titleHasChallengeMarker title then Category.captchaOrLogin
    else if isRedditPage subs title then Category.success
    else Category.wrongDomain

/-- Classification of one attempt result; a transport exception has no
response to classify. -/
def classifyResult (subs : List Str) : AttemptResult → Option Category
  | AttemptResult.transportError => none
  | AttemptResult.response r => some (classify subs r)

/-!
RequestExecutor: the retry loop of `_make_request`.  The environment is an
oracle `ow : Nat → AttemptResult` giving the result each attempt index
would produce.  The loop body returns the parsed page only when the
classification is `success`; every other category (and every transport
exception) falls through to the next iteration, and the loop `for attempt
in range(max_retries)` bounds the number of iterations.  After the loop,
`_make_request` returns `None`.
-/

/-- The default `max_retries` of `_make_request` (all call sites use it). -/
def defaultMaxRetries : Nat := 3

/-- Whether one attempt ends the loop by returning the parsed page
(line 252 `return soup`): only a 200 response classified `success`. -/
def attemptSucceeds (subs : List Str) : AttemptResult → Option AttemptResponse
  | AttemptResult.transportError => none
  | AttemptResult.response r =>
    if classify subs r = Category.success then some r else none

/-- The retry loop: `attempt` is the current attempt index, the second
argument the number of iterations left.  Returns the result and the number
of attempts performed. -/
def makeRequestLoop (subs : List Str) (ow : Nat → AttemptResult) :
    Nat → Nat → Option AttemptResponse × Nat
  | _, 0 => (none, 0)
  | attempt, rem + 1 =>
    match attemptSucceeds subs (ow attempt) with
    | some r => (some r, 1)
    | none =>
      let p := makeRequestLoop subs ow (attempt + 1) rem
      (p.1, p.2 + 1)

/-- One logical fetch `_make_request(url, max_retries)`: at most
`maxRetries` attempts starting at index 0; `None` when the loop ends
without a successful classification. -/
def makeRequest (subs : List Str) (ow : Nat → AttemptResult) (maxRetries : Nat) :
    Option AttemptResponse × Nat :=
  makeRequestLoop subs ow 0 maxRetries

/-!
RateLimiter: the delays of `_make_request`, and the observable effects of
one loop iteration in source order.
-/

/-- Lower end of the configured `request_delay` range (default `[8, 15]`). -/
def requestDelayLo : ℚ := 8

/-- Upper end of the configured `request_delay` range (default `[8, 15]`). -/
def requestDelayHi : ℚ := 15

/-- The end-of-iteration backoff (line 264):
`(2 ** attempt) + random.uniform(5, 15)`. -/
def expBackoffWait (attempt : Nat) (u : ℚ) : ℚ :=
  (2 : ℚ) ^ attempt + uniformQ 5 15 u

/-- Observable effects of one loop iteration. -/
inductive Event where
  | httpGet
  | saveCookies
  | sleep (w : ℚ)
  | returnDoc
deriving DecidableEq

/-- The top-of-iteration retry delay (lines 193-198): only when
`attempt > 0`, drawn from the configured `request_delay` range. -/
def topDelay (attempt : Nat) (u : ℚ) : List Event :=
  if attempt = 0 then []
  else [Event.sleep (uniformQ requestDelayLo requestDelayHi u)]

/-- Effects performed after classifying a 200 response, per category:
heavy-load sleeps 20-30 then `continue`s; captcha/login sleeps 30-60 then
`continue`s; a wrong-domain page sleeps 15-25 and then also reaches the
end-of-iteration exponential backoff; a non-200 status reaches only the
exponential backoff; success returns the page. -/
def branchEffects (attempt : Nat) (c : Category) (uBranch uBack : ℚ) : List Event :=
  match c with
  | Category.success => [Event.returnDoc]
  | Category.heavyLoad => [Event.sleep (uniformQ 20 30 uBranch)]
  | Category.captchaOrLogin => [Event.sleep (uniformQ 30 60 uBranch)]
  | Category.wrongDomain =>
    [Event.sleep (uniformQ 15 25 uBranch), Event.sleep (expBackoffWait attempt uBack)]
  | Category.httpError => [Event.sleep (expBackoffWait attempt uBack)]

/-- Effects of one iteration of the `_make_request` loop, in source order.
`session.get` raising a transport exception skips `_save_cookies` (the
`except` at line 260 catches before it runs); a received response is
followed immediately by `_save_cookies()` (line 204) and then by the
branch on its classification. -/
def attemptEffects (subs : List Str) (attempt : Nat) (res : AttemptResult)
    (uTop uBranch uBack : ℚ) : List Event :=
  topDelay attempt uTop ++
  match res with
  | AttemptResult.transportError =>
    [Event.httpGet, Event.sleep (expBackoffWait attempt uBack)]
  | AttemptResult.response r =>
    Event.httpGet :: Event.saveCookies ::
      branchEffects attempt (classify subs r) uBranch uBack

/-!
ExtractionPipeline, old layout: `_parse_old_reddit`.
-/

/-- The `div.score` element of one old-layout post: its `title` attribute
(if present) and its visible text. -/
structure ScoreElement where
  titleAttr : Option Str
  text : Str
deriving DecidableEq

/-- The `a.title` element of one old-layout post. -/
structure TitleElement where
  text : Str
  href : Option Str
deriving DecidableEq

/-- One `div.thing` post element of the old layout, reduced to the fields
`_parse_old_reddit` reads. -/
structure OldPostElement where
  classes : List Str
  idAttr : Str
  titleEl : Option TitleElement
  scoreEl : Option ScoreElement
deriving DecidableEq

/-- Visible-text score parsing of `_parse_old_reddit` (lines 402-413),
reached when the `title` attribute is not an integer:
`score_text = score_element.text.strip().lower()`; a text containing `'k'`
is parsed as `int(float(text.replace('k','')) * 1000)` with the configured
minimum score on `ValueError`; otherwise all non-digits are stripped and
the result parsed as an integer, again with the minimum score fallback. -/
def oldVisibleScore (minScore : Int) (raw : Str) : Int :=
  let s := lowerStr (pyStrip raw)
  if containsChar s 'k' then
    match parseDecimalND (removeChar s 'k') with
    | some p => ((intOfFloatMul p.1 p.2 1000 : Nat) : Int)
    | none => minScore
  else
    match digitsVal? (stripNonDigits s) with
    | some n => (n : Int)
    | none => minScore

/-- Score extraction of `_parse_old_reddit` (lines 394-413): `score = 0`
when no score element exists; otherwise `int(score_element.get('title', '0'))`,
falling back to the visible text only when that raises `ValueError`. -/
def oldRedditScore (minScore : Int) (el : Option ScoreElement) : Int :=
  match el with
  | none => 0
  | some e =>
    match pyIntParse (e.titleAttr.getD (str "0")) with
    | some n => n
    | none => oldVisibleScore minScore e.text

/-- The site origin prepended to rooted permalink paths. -/
def redditOrigin : Str := str "https://www.reddit.com"

/-- Permalink handling of `_parse_old_reddit` (lines 416-421): a missing or
empty href discards the post; an href starting with `"http"` passes through;
an href starting with `"/"` gets the origin prepended; any other href gets
the origin and a `"/"` prepended. -/
def oldPermalink (href : Option Str) : Option Str :=
  match href with
  | none => none
  | some p =>
    if p.isEmpty then none
    else if startsWithStr (str "http") p then some p
    else if startsWithStr (str "/") p then some (redditOrigin ++ p)
    else some (redditOrigin ++ str "/" ++ p)

/-- One post of `_parse_old_reddit` (lines 381-435): stickied or promoted
posts are skipped; the id is `post.get('id','').split('_')[-1]`; the title
is the stripped `a.title` text or `"Unknown Title"`; the record is emitted
only when a permalink was found, with empty detail fields. -/
def parseOldPost (minScore : Int) (nowT : Nat) (sub : Str) (p : OldPostElement) :
    Option ThreadRecord :=
  if p.classes.any (fun c => c == str "stickied") ||
     p.classes.any (fun c => c == str "promoted") then none
  else
    match oldPermalink (p.titleEl.bind TitleElement.href) with
    | none => none
    | some pl =>
      some { id := splitLast '_' p.idAttr
           , title := (p.titleEl.map (fun t => pyStrip t.text)).getD (str "Unknown Title")
           , subreddit := sub
           , score := oldRedditScore minScore p.scoreEl
           , num_comments := 0
           , created_utc := nowT
           , permalink := pl
           , url := pl
           , selftext := []
           , top_comments := [] }

/-- `_parse_old_reddit` over the list of `div.thing` elements. -/
def parseOldReddit (minScore : Int) (nowT : Nat) (sub : Str)
    (posts : List OldPostElement) : List ThreadRecord :=
  posts.filterMap (parseOldPost minScore nowT sub)

/-!
ExtractionPipeline, new layout: `_parse_new_reddit`.
-/

/-- Score-text normalization of `_parse_new_reddit` (lines 588-598):
`score_text.lower().replace(',', '')`; a text containing `'k'` is parsed as
`int(float(text.replace('k','')) * 1000)` and one containing `'m'` as
`int(float(text.replace('m','')) * 1000000)` — a `ValueError` there
propagates and the post is skipped (`none`); otherwise non-digits are
stripped and parsed, keeping the minimum-score default on failure. -/
def newScoreFromText (minScore : Int) (raw : Str) : Option Int :=
  let sc := removeChar (lowerStr raw) ','
  if containsChar sc 'k' then
    (parseDecimalND (removeChar sc 'k')).map
      (fun p => ((intOfFloatMul p.1 p.2 1000 : Nat) : Int))
  else if containsChar sc 'm' then
    (parseDecimalND (removeChar sc 'm')).map
      (fun p => ((intOfFloatMul p.1 p.2 1000000 : Nat) : Int))
  else
    some (match digitsVal? (stripNonDigits sc) with
          | some n => (n : Int)
          | none => minScore)

/-- Score extraction of `_parse_new_reddit` (lines 561-598): the score
starts at the configured minimum and is replaced only when the locator
cascade produced a score text. -/
def newRedditScore (minScore : Int) (scoreText : Option Str) : Option Int :=
  match scoreText with
  | none => some minScore
  | some raw => newScoreFromText minScore raw

/-- The permalink anchor search of `_parse_new_reddit` (line 602):
`post.find('a', href=lambda h: h and '/comments/' in h)` — the first
nonempty href containing `"/comments/"`. -/
def findCommentsHref (hrefs : List Str) : Option Str :=
  hrefs.find? (fun h => !h.isEmpty && isSubstr (str "/comments/") h)

/-- Permalink normalization of `_parse_new_reddit` (lines 604-607): only an
href starting with `"/"` gets the origin prepended; anything else passes
through unchanged. -/
def newPermalinkNorm (p : Str) : Str :=
  if startsWithStr (str "/") p then redditOrigin ++ p else p

/-- One post element of `_parse_new_reddit`, reduced to the inputs its
field cascades operate on: the resolved id and title (their locator
cascades read DOM nodes not modelled here), the first score text the score
cascade found, and the hrefs of the post's anchors in document order. -/
structure NewPostElement where
  resolvedId : Str
  resolvedTitle : Str
  scoreText : Option Str
  hrefs : List Str
deriving DecidableEq

/-- One post of `_parse_new_reddit` (lines 517-632): the record is emitted
only when a `/comments/` anchor exists; a `ValueError` while parsing a
k/m score text skips the post (the per-post `except` at line 629). -/
def parseNewPost (minScore : Int) (nowT : Nat) (sub : Str) (p : NewPostElement) :
    Option ThreadRecord :=
  match newRedditScore minScore p.scoreText with
  | none => none
  | some score =>
    match findCommentsHref p.hrefs with
    | none => none
    | some href =>
      let pl := newPermalinkNorm href
      some { id := p.resolvedId
           , title := p.resolvedTitle
           , subreddit := sub
           , score := score
           , num_comments := 0
           , created_utc := nowT
           , permalink := pl
           , url := pl
           , selftext := []
           , top_comments := [] }

/-- `_parse_new_reddit` over the post elements found. -/
def parseNewReddit (minScore : Int) (nowT : Nat) (sub : Str)
    (posts : List NewPostElement) : List ThreadRecord :=
  posts.filterMap (parseNewPost minScore nowT sub)

/-!
ThreadAssembler: the enrichment loop of `_scrape_without_api`
(lines 346-352), and `_fetch_thread_details` (lines 636-783).
-/

/-- The records for which `_scrape_without_api` issues a detail fetch:
exactly those with `thread["score"] >= minimum_score`. -/
def detailFetchTargets (minScore : Int) (ts : List ThreadRecord) : List ThreadRecord :=
  ts.filter (fun t => minScore ≤ t.score)

/-- The enrichment loop of `_scrape_without_api`: each record meeting the
minimum score is replaced by its detail-enriched version (the dictionary is
mutated in place, so the list reflects it); records below the minimum are
left untouched. -/
def enrichThreads (minScore : Int) (fetch : ThreadRecord → ThreadRecord)
    (ts : List ThreadRecord) : List ThreadRecord :=
  ts.map (fun t => if minScore ≤ t.score then fetch t else t)

/-- How far the detail parsing of `_fetch_thread_details` got before its
`except` (line 777) fired, with the values assigned up to that point.  The
three assignments happen in source order: `thread_data["selftext"]`
(line 683), `thread_data["num_comments"]` (line 702),
`thread_data["top_comments"]` (line 775). -/
inductive DetailParseOutcome where
  | abortEarly
  | abortAfterSelftext (st : Str)
  | abortAfterCount (st : Str) (nc : Int)
  | complete (st : Str) (nc : Int) (cs : List CommentRecord)
deriving DecidableEq

/-- Apply the assignments of one detail-parse outcome to a record. -/
def applyDetails (t : ThreadRecord) : DetailParseOutcome → ThreadRecord
  | DetailParseOutcome.abortEarly => t
  | DetailParseOutcome.abortAfterSelftext st => { t with selftext := st }
  | DetailParseOutcome.abortAfterCount st nc =>
    { t with selftext := st, num_comments := nc }
  | DetailParseOutcome.complete st nc cs =>
    { t with selftext := st, num_comments := nc, top_comments := cs }

/-- `_fetch_thread_details`: when `_make_request` returned no document the
record is returned unchanged (line 658); otherwise the detail fields are
assigned as far as parsing got, and the record is returned (line 783). -/
def fetchThreadDetails (doc : Option DetailParseOutcome) (t : ThreadRecord) :
    ThreadRecord :=
  match doc with
  | none => t
  | some o => applyDetails t o

/-!
Helper lemmas.
-/

/-- The fueled logarithm satisfies the `⌊log₂⌋` characterization whenever
the fuel covers the argument. -/
theorem log2F_spec : ∀ (fuel n : Nat), 0 < n → n ≤ fuel →
    2 ^ log2F fuel n ≤ n ∧ n < 2 ^ (log2F fuel n + 1) := by
  intro fuel
  induction fuel with
  | zero => intro n h1 h2; omega
  | succ f ih =>
    intro n h1 h2
    unfold log2F
    by_cases h : 2 ≤ n
    · rw [if_pos h]
      obtain ⟨a1, a2⟩ := ih (n / 2) (by omega) (by omega)
      constructor
      · rw [pow_succ]
        omega
      · rw [pow_succ]
        omega
    · rw [if_neg h]
      constructor
      · simpa using h1
      · simpa using (by omega : n < 2)

/-- `log2N` characterization for positive arguments. -/
theorem log2N_spec (n : Nat) (hn : 0 < n) :
    2 ^ log2N n ≤ n ∧ n < 2 ^ (log2N n + 1) :=
  log2F_spec n n hn (Nat.le_refl n)

/-- Any exponent satisfying the `⌊log₂⌋` characterization is `log2N`. -/
theorem log2N_unique {n k : Nat} (hn : 0 < n) (h1 : 2 ^ k ≤ n)
    (h2 : n < 2 ^ (k + 1)) : log2N n = k := by
  obtain ⟨a1, a2⟩ := log2N_spec n hn
  rcases Nat.lt_trichotomy (log2N n) k with h | h | h
  · have := Nat.pow_le_pow_right (by norm_num : 0 < 2) (show log2N n + 1 ≤ k by omega)
    omega
  · exact h
  · have := Nat.pow_le_pow_right (by norm_num : 0 < 2) (show k + 1 ≤ log2N n by omega)
    omega

/-- Shifting left by `t` bits adds `t` to the logarithm. -/
theorem log2N_mul_pow (v t : Nat) (hv : 0 < v) :
    log2N (v * 2 ^ t) = log2N v + t := by
  obtain ⟨a1, a2⟩ := log2N_spec v hv
  refine log2N_unique (by positivity) ?_ ?_
  · rw [pow_add]
    exact Nat.mul_le_mul_right _ a1
  · have hlt : v * 2 ^ t < 2 ^ (log2N v + 1) * 2 ^ t :=
      mul_lt_mul_of_pos_right a2 (by positivity)
    have he : (2 : ℕ) ^ (log2N v + 1) * 2 ^ t = 2 ^ (log2N v + t + 1) := by
      rw [← pow_add]
      congr 1
      omega
    omega

/-- The logarithm of a power of two. -/
theorem log2N_two_pow (t : Nat) : log2N (2 ^ t) = t := by
  have h := log2N_mul_pow 1 t (by norm_num)
  simpa [show log2N 1 = 0 from rfl] using h

/-- A value below `2^53` has logarithm at most 52. -/
theorem log2N_le_52 {v : Nat} (hv : 0 < v) (hb : v < 2 ^ 53) : log2N v ≤ 52 := by
  by_contra h
  have h1 := (log2N_spec v hv).1
  have := Nat.pow_le_pow_right (by norm_num : 0 < 2) (show 53 ≤ log2N v by omega)
  omega

/-- For a value presented as `v·2^t / 2^t` the binary exponent is `log2N v`. -/
theorem floorLog2Q_pow_mul (v t : Nat) (hv : 0 < v) :
    floorLog2Q (v * 2 ^ t) (2 ^ t) = (log2N v : Int) := by
  simp only [floorLog2Q, log2N_mul_pow v t hv, log2N_two_pow t]
  have hg : ((log2N v + t : Nat) : Int) - ((t : Nat) : Int) = (log2N v : Int) := by
    push_cast
    ring
  rw [hg]
  have e1 : ((log2N v : Int)).toNat = log2N v := by omega
  have e2 : (-(log2N v : Int)).toNat = 0 := by omega
  rw [e1, e2]
  rw [if_pos]
  have h1 := (log2N_spec v hv).1
  calc (2 : ℕ) ^ t * 2 ^ log2N v ≤ 2 ^ t * v := Nat.mul_le_mul_left _ h1
    _ = v * 2 ^ t * 2 ^ 0 := by ring

/-- Rounding a value that already fits in 53 bits is exact (the dyadic is
the value itself, normalized). -/
theorem roundDouble_pow_mul (v t : Nat) (hv : 0 < v) (hb : v < 2 ^ 53) :
    roundDouble (v * 2 ^ t) (2 ^ t) =
      ⟨v * 2 ^ (52 - log2N v), (log2N v : Int) - 52⟩ := by
  have hl : log2N v ≤ 52 := log2N_le_52 hv hb
  have hNne : v * 2 ^ t ≠ 0 := by positivity
  simp only [roundDouble]
  rw [if_neg hNne, floorLog2Q_pow_mul v t hv]
  have e1 : ((52 : Int) - (log2N v : Int)).toNat = 52 - log2N v := by omega
  have e2 : (-((52 : Int) - (log2N v : Int))).toNat = 0 := by omega
  rw [e1, e2]
  have hbpos : 0 < (2 : ℕ) ^ t * 2 ^ 0 := by positivity
  have hm : roundMantissa (v * 2 ^ t * 2 ^ (52 - log2N v)) (2 ^ t * 2 ^ 0) =
      v * 2 ^ (52 - log2N v) := by
    have ha : v * 2 ^ t * 2 ^ (52 - log2N v) =
        v * 2 ^ (52 - log2N v) * (2 ^ t * 2 ^ 0) := by ring
    simp only [roundMantissa, ha, Nat.mul_div_cancel _ hbpos, Nat.mul_mod_left]
    rw [if_pos (by omega : 2 * 0 < 2 ^ t * 2 ^ 0)]
  rw [hm]
  have h2 := (log2N_spec v hv).2
  have hmlt : v * 2 ^ (52 - log2N v) < 2 ^ 53 := by
    have hstep : v * 2 ^ (52 - log2N v) <
        2 ^ (log2N v + 1) * 2 ^ (52 - log2N v) :=
      mul_lt_mul_of_pos_right h2 (by positivity)
    have he : (2 : ℕ) ^ (log2N v + 1) * 2 ^ (52 - log2N v) = 2 ^ 53 := by
      rw [← pow_add]
      congr 1
      omega
    omega
  rw [if_neg (by omega : ¬ v * 2 ^ (52 - log2N v) = 2 ^ 53)]

/-- `int(float(n) * mult)` is exactly `n * mult` for an integer literal
whose product still fits in the 53-bit significand. -/
theorem intOfFloatMul_int (n mult : Nat) (hmult : 0 < mult)
    (hb : n * mult < 2 ^ 53) : intOfFloatMul n 1 mult = n * mult := by
  rcases Nat.eq_zero_or_pos n with rfl | hn
  · simp [intOfFloatMul, roundDouble, mulDouble, truncDyadic]
  · have hn53 : n < 2 ^ 53 := by
      have := Nat.le_mul_of_pos_right n hmult
      omega
    have hl : log2N n ≤ 52 := log2N_le_52 hn hn53
    have h1 : roundDouble n 1 = ⟨n * 2 ^ (52 - log2N n), (log2N n : Int) - 52⟩ := by
      have h := roundDouble_pow_mul n 0 hn hn53
      simpa using h
    unfold intOfFloatMul
    rw [h1]
    simp only [mulDouble]
    have e1 : (((log2N n : Int) - 52)).toNat = 0 := by omega
    have e2 : ((-((log2N n : Int) - 52))).toNat = 52 - log2N n := by omega
    rw [e1, e2]
    have ha : n * 2 ^ (52 - log2N n) * mult * 2 ^ 0 =
        (n * mult) * 2 ^ (52 - log2N n) := by ring
    rw [ha, roundDouble_pow_mul (n * mult) (52 - log2N n) (by positivity) hb]
    have hL : log2N (n * mult) ≤ 52 := log2N_le_52 (by positivity) hb
    simp only [truncDyadic]
    have f1 : (((log2N (n * mult) : Int) - 52)).toNat = 0 := by omega
    have f2 : ((-((log2N (n * mult) : Int) - 52))).toNat = 52 - log2N (n * mult) := by
      omega
    rw [f1, f2, pow_zero, mul_one]
    exact Nat.mul_div_cancel _ (by positivity)

/-- A digit character is unchanged by lowercasing. -/
theorem asciiLower_digit {c : Char} (h : isDigitC c = true) : asciiLower c = c := by
  simp only [isDigitC, Bool.and_eq_true, decide_eq_true_eq] at h
  unfold asciiLower
  rw [if_neg]
  omega

/-- A digit-or-dot character is unchanged by lowercasing. -/
theorem asciiLower_digitOrDot {c : Char} (h : isDigitC c = true ∨ c = '.') :
    asciiLower c = c := by
  rcases h with h | h
  · exact asciiLower_digit h
  · subst h; decide

/-- Lowercasing fixes a string of digits and dots. -/
theorem lowerStr_fix {s : Str} (h : ∀ c ∈ s, isDigitC c = true ∨ c = '.') :
    lowerStr s = s := by
  induction s with
  | nil => rfl
  | cons c cs ih =>
    simp only [lowerStr, List.map_cons]
    rw [asciiLower_digitOrDot (h c (by simp)), show List.map asciiLower cs = lowerStr cs from rfl,
      ih (fun d hd => h d (by simp [hd]))]

/-- A digit never equals a non-digit character. -/
theorem beq_false_of_digit {c k : Char} (h : isDigitC c = true) (hk : isDigitC k = false) :
    (c == k) = false := by
  rw [beq_eq_false_iff_ne]
  intro e
  subst e
  rw [h] at hk
  exact Bool.noConfusion hk

/-- A digit-or-dot character never equals a character that is neither. -/
theorem beq_false_of_digitOrDot {c k : Char} (hk : isDigitC k = false ∧ ¬(k = '.'))
    (h : isDigitC c = true ∨ c = '.') : (c == k) = false := by
  rcases h with h | h
  · exact beq_false_of_digit h hk.1
  · subst h
    rw [beq_eq_false_iff_ne]
    exact fun e => hk.2 e.symm

/-- Removing a character absent from a string leaves it unchanged. -/
theorem removeChar_eq_self {s : Str} {k : Char} (h : ∀ c ∈ s, (c == k) = false) :
    removeChar s k = s := by
  unfold removeChar
  rw [List.filter_eq_self]
  intro a ha
  rw [h a ha]
  rfl

/-- `removeChar` distributes over append. -/
theorem removeChar_append (s t : Str) (k : Char) :
    removeChar (s ++ t) k = removeChar s k ++ removeChar t k := by
  simp [removeChar]

/-- A string extended with `k` contains `k`. -/
theorem containsChar_append_self (s : Str) (k : Char) :
    containsChar (s ++ [k]) k = true := by
  simp [containsChar]

/-- A string of characters all different from `k` does not contain `k`. -/
theorem containsChar_false {s : Str} {k : Char} (h : ∀ c ∈ s, (c == k) = false) :
    containsChar s k = false := by
  unfold containsChar
  rw [List.any_eq_false]
  intro a ha
  rw [h a ha]
  exact Bool.false_ne_true

/-- Splitting on a separator absent from the string yields one piece. -/
theorem splitOnChar_no_sep {s : Str} {k : Char} (h : ∀ c ∈ s, (c == k) = false) :
    splitOnChar k s = [s] := by
  induction s with
  | nil => rfl
  | cons c cs ih =>
    unfold splitOnChar
    rw [ih (fun d hd => h d (by simp [hd]))]
    simp [h c (by simp)]

/-- Filtering by a predicate every element satisfies is the identity. -/
theorem filter_eq_self_of_all {s : Str} {p : Char → Bool} (h : ∀ c ∈ s, p c = true) :
    s.filter p = s := List.filter_eq_self.mpr h

/-- The attempt counter of the retry loop never exceeds the remaining bound. -/
theorem makeRequestLoop_le (subs : List Str) (ow : Nat → AttemptResult) :
    ∀ rem attempt, (makeRequestLoop subs ow attempt rem).2 ≤ rem := by
  intro rem
  induction rem with
  | zero => intro _; simp [makeRequestLoop]
  | succ n ih =>
    intro attempt
    unfold makeRequestLoop
    cases attemptSucceeds subs (ow attempt) with
    | none => simpa using ih (attempt + 1)
    | some r => simp

/-- When every attempt in range fails, the loop exhausts the bound and
returns no document. -/
theorem makeRequestLoop_all_fail (subs : List Str) (ow : Nat → AttemptResult) :
    ∀ rem attempt, (∀ i, attempt ≤ i → i < attempt + rem →
      attemptSucceeds subs (ow i) = none) →
    makeRequestLoop subs ow attempt rem = (none, rem) := by
  intro rem
  induction rem with
  | zero => intro _ _; rfl
  | succ n ih =>
    intro attempt h
    unfold makeRequestLoop
    rw [h attempt (Nat.le_refl _) (by omega)]
    rw [ih (attempt + 1) (fun i h1 h2 => h i (by omega) (by omega))]

/-- An attempt classified as anything but `success` does not end the loop. -/
theorem attemptSucceeds_none_of_classify {subs : List Str} {res : AttemptResult}
    {c : Category} (h : classifyResult subs res = some c)
    (hc : c ≠ Category.success) : attemptSucceeds subs res = none := by
  cases res with
  | transportError => rfl
  | response r =>
    simp only [classifyResult, Option.some.injEq] at h
    show (if classify subs r = Category.success then some r else none) = none
    rw [h, if_neg hc]

/-- Every in-range position of a replicated list holds the replicated value. -/
theorem get?_replicate {α : Type} (a : α) :
    ∀ n i, i < n → (List.replicate n a).get? i = some a := by
  intro n
  induction n with
  | zero => intro i h; omega
  | succ m ih =>
    intro i h
    cases i with
    | zero => rfl
    | succ j => exact ih j (by omega)

/-!
Claim theorems.
-/

/-- C10: detail enrichment returns the same record with only `selftext`,
`num_comments` and `top_comments` possibly modified; the listing-derived
fields `id`, `title`, `subreddit`, `score`, `permalink`, `url` and
`created_utc` are unchanged whether the detail fetch returned no document,
parsing aborted at any stage, or parsing completed. -/
theorem fetchThreadDetails_frame (doc : Option DetailParseOutcome) (t : ThreadRecord) :
    (fetchThreadDetails doc t).id = t.id ∧
    (fetchThreadDetails doc t).title = t.title ∧
    (fetchThreadDetails doc t).subreddit = t.subreddit ∧
    (fetchThreadDetails doc t).score = t.score ∧
    (fetchThreadDetails doc t).permalink = t.permalink ∧
    (fetchThreadDetails doc t).url = t.url ∧
    (fetchThreadDetails doc t).created_utc = t.created_utc := by
  rcases doc with _ | o
  · exact ⟨rfl, rfl, rfl, rfl, rfl, rfl, rfl⟩
  · rcases o <;> exact ⟨rfl, rfl, rfl, rfl, rfl, rfl, rfl⟩

/-- C2: one logical fetch performs at most `maxRetries` request attempts,
counting every attempt regardless of its failure category, and when no
attempt in range is classified successful the fetch performs exactly
`maxRetries` attempts and returns `none` rather than retrying further. -/
theorem makeRequest_attempt_bound (subs : List Str) (ow : Nat → AttemptResult)
    (maxR : Nat) :
    (makeRequest subs ow maxR).2 ≤ maxR ∧
    ((∀ i, i < maxR → attemptSucceeds subs (ow i) = none) →
      makeRequest subs ow maxR = (none, maxR)) := by
  constructor
  · exact makeRequestLoop_le subs ow maxR 0
  · intro h
    exact makeRequestLoop_all_fail subs ow maxR 0 (fun i _ h2 => h i (by omega))

/-- Witness for C2: three transport failures with the default bound of 3
yield exactly 3 attempts and no document. -/
theorem makeRequest_attempt_bound_witness :
    (makeRequest [] (fun _ => AttemptResult.transportError) 3).2 ≤ 3 ∧
    makeRequest [] (fun _ => AttemptResult.transportError) 3 = (none, 3) :=
  ⟨(makeRequest_attempt_bound [] (fun _ => AttemptResult.transportError) 3).1,
   (makeRequest_attempt_bound [] (fun _ => AttemptResult.transportError) 3).2
     (fun _ _ => rfl)⟩

/-- C8 counterexample: an attempt that fails at the transport level (the
`session.get` exception is caught at line 260) performs no cookie save, so
cookies are not persisted after every attempt. -/
theorem transport_error_no_cookie_save :
    Event.saveCookies ∉ attemptEffects [] 0 AttemptResult.transportError 0 0 0 := by
  decide

/-- C8 amended: cookies are persisted immediately after every attempt that
receives an HTTP response — whatever its status or classification — and
before any further processing of that response; an attempt failing at the
transport level performs no save. -/
theorem cookies_saved_after_response (subs : List Str) (attempt : Nat)
    (r : AttemptResponse) (uT uB uK : ℚ) :
    Event.saveCookies ∈ attemptEffects subs attempt (AttemptResult.response r) uT uB uK ∧
    attemptEffects subs attempt (AttemptResult.response r) uT uB uK =
      topDelay attempt uT ++ Event.httpGet :: Event.saveCookies ::
        branchEffects attempt (classify subs r) uB uK := by
  constructor
  · simp [attemptEffects]
  · rfl

/-- C9 counterexample: a post with no score element gets score `0`
(`score = 0` at line 396 is never overwritten), not the configured
minimum-score fallback. -/
theorem missing_score_element_yields_zero :
    oldRedditScore 300 none = 0 ∧ (0 : Int) ≠ 300 := by decide

/-- C9 amended: in the new layout a missing score text yields the
configured minimum-score fallback, and a score text without digits and
without a `k`/`m` character falls back to the minimum as well; but an
unparseable text that does contain `k` or `m` raises `ValueError` in
`float()` (lines 591/593) and the per-post handler at line 629 drops the
record entirely — no fallback.  In the old layout the fallback applies
only when a score element is present whose `title` attribute and visible
text both fail to parse — a missing score element yields `0`, and a
missing `title` attribute yields `0` as well (the attribute defaults to
`"0"`). -/
theorem score_fallback_behavior (minS : Int) (txt : Str) :
    oldRedditScore minS none = 0 ∧
    oldRedditScore minS (some ⟨none, txt⟩) = 0 ∧
    oldRedditScore minS (some ⟨some (str "points"), str "•"⟩) = minS ∧
    newRedditScore minS none = some minS ∧
    (∀ t : Str,
      containsChar (removeChar (lowerStr t) ',') 'k' = false →
      containsChar (removeChar (lowerStr t) ',') 'm' = false →
      (∀ c ∈ removeChar (lowerStr t) ',', isDigitC c = false) →
      newScoreFromText minS t = some minS) ∧
    newScoreFromText minS (str "N/A") = some minS ∧
    newScoreFromText minS (str "1.2k upvotes") = none ∧
    (∀ (nowT : Nat) (sub : Str) (pe : NewPostElement),
      newRedditScore minS pe.scoreText = none →
      parseNewPost minS nowT sub pe = none) := by
  refine ⟨rfl, rfl, rfl, rfl, ?_, rfl, rfl, ?_⟩
  · intro t hk hm hdig
    simp only [newScoreFromText]
    rw [if_neg (by simp [hk]), if_neg (by simp [hm])]
    have hnil : stripNonDigits (removeChar (lowerStr t) ',') = [] := by
      unfold stripNonDigits
      rw [List.filter_eq_nil_iff]
      intro a ha
      simp [hdig a ha]
    rw [hnil]
    rfl
  · intro nowT sub pe h
    simp [parseNewPost, h]

/-- C6 counterexample: within one `_make_request` call the header profile
of attempt 0 equals the header profile of attempt 1 — the profile built
before the loop is reused across attempts. -/
theorem headers_reused_across_attempts :
    (makeRequestHeaders true ⟨0, 0⟩ 2).get? 0 = (makeRequestHeaders true ⟨0, 0⟩ 2).get? 1 ∧
    (makeRequestHeaders true ⟨0, 0⟩ 2).get? 0 = some (getBrowserHeaders ⟨0, 0⟩) :=
  ⟨rfl, rfl⟩

/-- C6 amended: one header profile is built per logical fetch, before the
first attempt, and that same profile is used by every attempt of the
fetch; profiles are fresh per fetch, not per attempt. -/
theorem headers_built_once_per_fetch (ub : Bool) (rs : RandState) (n i j : Nat)
    (hi : i < n) (hj : j < n) :
    (makeRequestHeaders ub rs n).get? i = some (buildHeaders ub rs) ∧
    (makeRequestHeaders ub rs n).get? i = (makeRequestHeaders ub rs n).get? j := by
  unfold makeRequestHeaders
  constructor
  · exact get?_replicate _ n i hi
  · rw [get?_replicate _ n i hi, get?_replicate _ n j hj]

/-- Witness for C6 amended: a three-attempt fetch uses the one profile
built from the fetch's random draws on attempts 0 and 2 alike. -/
theorem headers_built_once_per_fetch_witness :
    (makeRequestHeaders true ⟨1, 2⟩ 3).get? 0 = some (buildHeaders true ⟨1, 2⟩) ∧
    (makeRequestHeaders true ⟨1, 2⟩ 3).get? 0 = (makeRequestHeaders true ⟨1, 2⟩ 3).get? 2 :=
  headers_built_once_per_fetch true ⟨1, 2⟩ 3 0 2 (by decide) (by decide)

/-- Records emitted by the old-layout parser carry empty detail fields. -/
theorem parseOldPost_empty_details {minS : Int} {nowT : Nat} {sub : Str}
    {p : OldPostElement} {t : ThreadRecord}
    (h : parseOldPost minS nowT sub p = some t) :
    t.selftext = [] ∧ t.top_comments = [] := by
  unfold parseOldPost at h
  split at h
  · exact absurd h (by simp)
  · split at h
    · exact absurd h (by simp)
    · rw [Option.some_inj] at h
      rw [← h]
      exact ⟨rfl, rfl⟩

/-- Records emitted by the new-layout parser carry empty detail fields. -/
theorem parseNewPost_empty_details {minS : Int} {nowT : Nat} {sub : Str}
    {p : NewPostElement} {t : ThreadRecord}
    (h : parseNewPost minS nowT sub p = some t) :
    t.selftext = [] ∧ t.top_comments = [] := by
  unfold parseNewPost at h
  split at h
  · exact absurd h (by simp)
  · split at h
    · exact absurd h (by simp)
    · rw [Option.some_inj] at h
      rw [← h]
      exact ⟨rfl, rfl⟩

/-- A record below the minimum score is kept unchanged by the enrichment loop. -/
theorem mem_enrich_of_below {minS : Int} {fetch : ThreadRecord → ThreadRecord}
    {ts : List ThreadRecord} {t : ThreadRecord} (ht : t ∈ ts) (hlow : t.score < minS) :
    t ∈ enrichThreads minS fetch ts := by
  unfold enrichThreads
  refine List.mem_map.mpr ⟨t, ht, ?_⟩
  rw [if_neg (by omega)]

/-- A record below the minimum score is not a detail-fetch target. -/
theorem not_target_of_below {minS : Int} {ts : List ThreadRecord} {t : ThreadRecord}
    (hlow : t.score < minS) : t ∉ detailFetchTargets minS ts := by
  unfold detailFetchTargets
  intro h
  have := (List.mem_filter.mp h).2
  simp only [decide_eq_true_eq] at this
  omega

/-- C5: a parsed record whose normalized listing score is below the
configured minimum is not a detail-fetch target, and the enrichment loop of
`_scrape_without_api` emits it untouched, with empty `selftext` and empty
`top_comments`; the same holds for new-layout parses. -/
theorem below_min_score_no_detail_fetch (minS : Int) (nowT : Nat) (sub : Str)
    (fetch : ThreadRecord → ThreadRecord) (posts : List OldPostElement)
    (nposts : List NewPostElement) (t : ThreadRecord)
    (ht : t ∈ parseOldReddit minS nowT sub posts) (hlow : t.score < minS) :
    (t ∈ enrichThreads minS fetch (parseOldReddit minS nowT sub posts) ∧
     t ∉ detailFetchTargets minS (parseOldReddit minS nowT sub posts) ∧
     t.selftext = [] ∧ t.top_comments = []) ∧
    (∀ u ∈ parseNewReddit minS nowT sub nposts, u.score < minS →
      u ∈ enrichThreads minS fetch (parseNewReddit minS nowT sub nposts) ∧
      u ∉ detailFetchTargets minS (parseNewReddit minS nowT sub nposts) ∧
      u.selftext = [] ∧ u.top_comments = []) := by
  constructor
  · obtain ⟨p, _, hp⟩ := List.mem_filterMap.mp ht
    obtain ⟨h1, h2⟩ := parseOldPost_empty_details hp
    exact ⟨mem_enrich_of_below ht hlow, not_target_of_below hlow, h1, h2⟩
  · intro u hu hul
    obtain ⟨p, _, hp⟩ := List.mem_filterMap.mp hu
    obtain ⟨h1, h2⟩ := parseNewPost_empty_details hp
    exact ⟨mem_enrich_of_below hu hul, not_target_of_below hul, h1, h2⟩

/-- Witness for C5: a concrete old-layout post with listing score 5 under
minimum 300 is emitted unchanged and fetches no details. -/
theorem below_min_score_no_detail_fetch_witness :
    ({ id := str "ab", title := str "T", subreddit := str "AmItheAsshole", score := 5,
       num_comments := 0, created_utc := 0,
       permalink := str "https://www.reddit.com/r/x/comments/ab/t/",
       url := str "https://www.reddit.com/r/x/comments/ab/t/",
       selftext := [], top_comments := [] } : ThreadRecord) ∈
      enrichThreads 300 (fun r => { r with selftext := str "enriched" })
        (parseOldReddit 300 0 (str "AmItheAsshole")
          [⟨[], str "t3_ab", some ⟨str "T", some (str "/r/x/comments/ab/t/")⟩,
            some ⟨some (str "5"), str "5 points"⟩⟩]) ∧
    ({ id := str "ab", title := str "T", subreddit := str "AmItheAsshole", score := 5,
       num_comments := 0, created_utc := 0,
       permalink := str "https://www.reddit.com/r/x/comments/ab/t/",
       url := str "https://www.reddit.com/r/x/comments/ab/t/",
       selftext := [], top_comments := [] } : ThreadRecord) ∉
      detailFetchTargets 300
        (parseOldReddit 300 0 (str "AmItheAsshole")
          [⟨[], str "t3_ab", some ⟨str "T", some (str "/r/x/comments/ab/t/")⟩,
            some ⟨some (str "5"), str "5 points"⟩⟩]) ∧
    ([] : Str) = [] ∧ ([] : List CommentRecord) = [] :=
  have h := below_min_score_no_detail_fetch 300 0 (str "AmItheAsshole")
    (fun r => { r with selftext := str "enriched" })
    [⟨[], str "t3_ab", some ⟨str "T", some (str "/r/x/comments/ab/t/")⟩,
      some ⟨some (str "5"), str "5 points"⟩⟩] []
    { id := str "ab", title := str "T", subreddit := str "AmItheAsshole", score := 5,
      num_comments := 0, created_utc := 0,
      permalink := str "https://www.reddit.com/r/x/comments/ab/t/",
      url := str "https://www.reddit.com/r/x/comments/ab/t/",
      selftext := [], top_comments := [] }
    (by decide) (by decide)
  ⟨h.1.1, h.1.2.1, h.1.2.2⟩

/-- C3: when a response is classified `CaptchaOrLogin` (its title contains
one of the challenge markers, case-insensitively), the wait the branch
computes before the next attempt is `uniform(30, 60)`: it lies within the
extended anomaly range `[30, 60]` and never within the base
network-backoff range `[2^attempt + 5, 2^attempt + 15]` (for attempt
indices under the default retry bound), never equals the network backoff
value, and never lies within the configured `request_delay` range. -/
theorem captcha_wait_in_anomaly_range (subs : List Str) (a : Nat)
    (r : AttemptResponse) (uB uK : ℚ)
    (hc : classify subs r = Category.captchaOrLogin)
    (hu : 0 ≤ uB ∧ uB ≤ 1) (hk : 0 ≤ uK ∧ uK ≤ 1) (ha : a < defaultMaxRetries) :
    branchEffects a (classify subs r) uB uK = [Event.sleep (uniformQ 30 60 uB)] ∧
    30 ≤ uniformQ 30 60 uB ∧ uniformQ 30 60 uB ≤ 60 ∧
    ¬((2 : ℚ) ^ a + 5 ≤ uniformQ 30 60 uB ∧ uniformQ 30 60 uB ≤ (2 : ℚ) ^ a + 15) ∧
    uniformQ 30 60 uB ≠ expBackoffWait a uK ∧
    ¬(requestDelayLo ≤ uniformQ 30 60 uB ∧ uniformQ 30 60 uB ≤ requestDelayHi) := by
  have h2a : (2 : ℚ) ^ a ≤ 4 := by
    unfold defaultMaxRetries at ha
    interval_cases a <;> norm_num
  have hw : uniformQ 30 60 uB = 30 + uB * 30 := by unfold uniformQ; ring
  have h1 : 0 ≤ uB * 30 := by nlinarith [hu.1]
  have h2 : uB * 30 ≤ 30 := by nlinarith [hu.2]
  refine ⟨by rw [hc]; rfl, ?_, ?_, ?_, ?_, ?_⟩
  · rw [hw]; linarith
  · rw [hw]; linarith
  · rintro ⟨_, hb⟩
    rw [hw] at hb
    linarith
  · have he : expBackoffWait a uK = 2 ^ a + (5 + uK * 10) := by
      unfold expBackoffWait uniformQ; ring
    intro e
    rw [hw, he] at e
    nlinarith [hk.1, hk.2]
  · rintro ⟨_, hb⟩
    rw [hw] at hb
    unfold requestDelayHi at hb
    linarith

/-- Witness for C3: a page titled "Log in to Reddit" is classified
`CaptchaOrLogin` and its wait is in `[30, 60]`, outside the attempt-0
backoff range `[6, 16]` and the request-delay range `[8, 15]`. -/
theorem captcha_wait_in_anomaly_range_witness :
    branchEffects 0
      (classify [] ⟨200, str "https://www.reddit.com/login", some (str "Log in to Reddit")⟩)
      0 0 = [Event.sleep (uniformQ 30 60 0)] ∧
    30 ≤ uniformQ 30 60 (0 : ℚ) ∧ uniformQ 30 60 (0 : ℚ) ≤ 60 ∧
    ¬((2 : ℚ) ^ (0 : Nat) + 5 ≤ uniformQ 30 60 0 ∧
      uniformQ 30 60 (0 : ℚ) ≤ (2 : ℚ) ^ (0 : Nat) + 15) ∧
    uniformQ 30 60 (0 : ℚ) ≠ expBackoffWait 0 0 ∧
    ¬(requestDelayLo ≤ uniformQ 30 60 (0 : ℚ) ∧ uniformQ 30 60 (0 : ℚ) ≤ requestDelayHi) :=
  captcha_wait_in_anomaly_range []
    0 ⟨200, str "https://www.reddit.com/login", some (str "Log in to Reddit")⟩ 0 0
    (by decide) (by decide) (by decide) (by decide)

/-- C7 counterexample: a page whose title lacks the site markers, the
separator pattern and every requested subject name is classified
`WrongDomain`, and under the default bound the fetch attempts it 3 times —
not the claimed single retry (2 attempts) — before returning `None`. -/
theorem wrongdomain_retried_to_bound :
    makeRequest []
      (fun _ => AttemptResult.response
        ⟨200, str "https://example.com/", some (str "Example Domain")⟩) 3 = (none, 3) ∧
    classify [] ⟨200, str "https://example.com/", some (str "Example Domain")⟩ =
      Category.wrongDomain ∧
    (3 : Nat) ≠ 2 := by decide

/-- C7 amended: a `WrongDomain` verdict is retried like any other failure,
up to the full retry bound: each wrong-domain attempt sleeps a moderate
delay `uniform(15, 25)` and then also the standard exponential backoff,
and when every attempt is classified `WrongDomain` the fetch exhausts the
bound and returns `None` (fatal for that URL). -/
theorem wrongdomain_retry_behavior (subs : List Str) (ow : Nat → AttemptResult)
    (maxR : Nat) (a : Nat) (r : AttemptResponse) (uB uK : ℚ)
    (hall : ∀ i, i < maxR → classifyResult subs (ow i) = some Category.wrongDomain)
    (hr : classify subs r = Category.wrongDomain) (hu : 0 ≤ uB ∧ uB ≤ 1) :
    makeRequest subs ow maxR = (none, maxR) ∧
    branchEffects a (classify subs r) uB uK =
      [Event.sleep (uniformQ 15 25 uB), Event.sleep (expBackoffWait a uK)] ∧
    15 ≤ uniformQ 15 25 uB ∧ uniformQ 15 25 uB ≤ 25 := by
  have hw : uniformQ 15 25 uB = 15 + uB * 10 := by unfold uniformQ; ring
  have h1 : 0 ≤ uB * 10 := by nlinarith [hu.1]
  have h2 : uB * 10 ≤ 10 := by nlinarith [hu.2]
  refine ⟨?_, by rw [hr]; rfl, ?_, ?_⟩
  · show makeRequestLoop subs ow 0 maxR = (none, maxR)
    apply makeRequestLoop_all_fail
    intro i _ h2
    exact attemptSucceeds_none_of_classify (hall i (by omega)) (by decide)
  · rw [hw]; linarith
  · rw [hw]; linarith

/-- Witness for C7 amended: three consecutive wrong-domain pages under the
default bound of 3 exhaust the fetch, each with a 15-25s moderate delay
followed by the exponential backoff. -/
theorem wrongdomain_retry_behavior_witness :
    makeRequest []
      (fun _ => AttemptResult.response
        ⟨200, str "https://example.org/a", some (str "Some Other Page")⟩) 3 = (none, 3) ∧
    branchEffects 0
      (classify [] ⟨200, str "https://example.org/a", some (str "Some Other Page")⟩) 0 0 =
      [Event.sleep (uniformQ 15 25 0), Event.sleep (expBackoffWait 0 0)] ∧
    15 ≤ uniformQ 15 25 (0 : ℚ) ∧ uniformQ 15 25 (0 : ℚ) ≤ 25 :=
  wrongdomain_retry_behavior []
    (fun _ => AttemptResult.response
      ⟨200, str "https://example.org/a", some (str "Some Other Page")⟩) 3 0
    ⟨200, str "https://example.org/a", some (str "Some Other Page")⟩ 0 0
    (fun i _ => by
      show classifyResult []
        (AttemptResult.response
          ⟨200, str "https://example.org/a", some (str "Some Other Page")⟩) =
        some Category.wrongDomain
      decide)
    (by decide) (by decide)

/-- C4 counterexample: in the new layout an anchor href containing
`/comments/` but starting with neither `http` nor `/` is emitted unchanged,
so the emitted record's permalink is not an absolute URL and the candidate
was not discarded. -/
theorem relative_permalink_emitted :
    (parseNewPost 300 0 (str "s")
      ⟨str "id1", str "A story title", none, [str "x/comments/abc/t/"]⟩).map
        ThreadRecord.permalink = some (str "x/comments/abc/t/") ∧
    startsWithStr (str "http") (str "x/comments/abc/t/") = false := by decide

/-- C4 amended: an href starting with `"http"` passes through both layouts
unchanged; an href starting with `"/"` is emitted as origin ++ path in both
layouts (and the origin has no trailing slash, so the join introduces no
double slash); in the old layout a missing or empty href discards the
record and any other href is emitted as origin ++ "/" ++ href; in the new
layout a post without a `/comments/` anchor is discarded, while an anchor
href starting with neither `"http"` nor `"/"` passes through unchanged and
may remain relative. -/
theorem permalink_normalization (p q w : Str)
    (hp : startsWithStr (str "http") p = true)
    (hq : startsWithStr (str "/") q = true)
    (hw : w ≠ [] ∧ startsWithStr (str "http") w = false ∧
      startsWithStr (str "/") w = false) :
    (oldPermalink (some p) = some p ∧ newPermalinkNorm p = p) ∧
    (oldPermalink (some q) = some (redditOrigin ++ q) ∧
     newPermalinkNorm q = redditOrigin ++ q) ∧
    (oldPermalink (some w) = some (redditOrigin ++ str "/" ++ w) ∧
     newPermalinkNorm w = w) ∧
    oldPermalink none = none ∧ oldPermalink (some []) = none ∧
    (∀ (minS : Int) (nowT : Nat) (sub : Str) (pe : NewPostElement),
      findCommentsHref pe.hrefs = none → parseNewPost minS nowT sub pe = none) ∧
    redditOrigin.getLast? ≠ some '/' := by
  obtain ⟨c, cs, rfl⟩ : ∃ c cs, p = c :: cs := by
    cases p with
    | nil => exact absurd hp (by decide)
    | cons c cs => exact ⟨c, cs, rfl⟩
  have hc : c = 'h' := by
    have h4 : str "http" = 'h' :: str "ttp" := rfl
    rw [h4] at hp
    simp only [startsWithStr, Bool.and_eq_true, beq_iff_eq] at hp
    exact hp.1.symm
  subst hc
  obtain ⟨d, ds, rfl⟩ : ∃ d ds, q = d :: ds := by
    cases q with
    | nil => exact absurd hq (by decide)
    | cons d ds => exact ⟨d, ds, rfl⟩
  have hd : d = '/' := by
    have h1 : str "/" = '/' :: ([] : Str) := rfl
    rw [h1] at hq
    simp only [startsWithStr, Bool.and_eq_true, beq_iff_eq] at hq
    exact hq.1.symm
  subst hd
  have ew : w.isEmpty = false := by
    cases w with
    | nil => exact absurd rfl hw.1
    | cons _ _ => rfl
  refine ⟨⟨?_, rfl⟩, ⟨rfl, rfl⟩, ⟨?_, ?_⟩, rfl, rfl, ?_, by decide⟩
  · simp [oldPermalink, hp]
  · simp [oldPermalink, ew, hw.2.1, hw.2.2]
  · simp [newPermalinkNorm, hw.2.2]
  · intro minS nowT sub pe hf
    cases h : newRedditScore minS pe.scoreText with
    | none => simp [parseNewPost, h]
    | some sc => simp [parseNewPost, h, hf]

/-- Witness for C4 amended: concrete hrefs of the three shapes. -/
theorem permalink_normalization_witness :
    (oldPermalink (some (str "https://x")) = some (str "https://x") ∧
     newPermalinkNorm (str "https://x") = str "https://x") ∧
    (oldPermalink (some (str "/r/a/comments/b/c/")) =
       some (redditOrigin ++ str "/r/a/comments/b/c/") ∧
     newPermalinkNorm (str "/r/a/comments/b/c/") =
       redditOrigin ++ str "/r/a/comments/b/c/") ∧
    (oldPermalink (some (str "c/comments/x")) =
       some (redditOrigin ++ str "/" ++ str "c/comments/x") ∧
     newPermalinkNorm (str "c/comments/x") = str "c/comments/x") ∧
    oldPermalink none = none ∧ oldPermalink (some []) = none ∧
    (∀ (minS : Int) (nowT : Nat) (sub : Str) (pe : NewPostElement),
      findCommentsHref pe.hrefs = none → parseNewPost minS nowT sub pe = none) ∧
    redditOrigin.getLast? ≠ some '/' :=
  permalink_normalization (str "https://x") (str "/r/a/comments/b/c/")
    (str "c/comments/x") (by decide) (by decide) ⟨by decide, by decide, by decide⟩

/-- C1 counterexample: the old-layout normalization has no `m` branch, so
the visible score text "1.5M" (reached when the `title` attribute is not
an integer) is digit-stripped to 15 instead of the claimed
`1.5 × 1,000,000 = 1,500,000`; and in the new layout binary64 rounding
makes "1.001k" normalize to 1000, not `1.001 × 1000 = 1001` truncated
toward zero. -/
theorem score_normalization_counterexample :
    (oldRedditScore 300 (some ⟨some (str "abc"), str "1.5M"⟩) = 15 ∧
     (15 : Int) ≠ 1500000) ∧
    (newScoreFromText 300 (str "1.001k") = some 1000 ∧ (1000 : Int) ≠ 1001) := by
  exact ⟨by decide, by decide⟩

/-- C1 amended: for an integer score literal whose scaled value fits the
53-bit significand, the new-layout normalization multiplies by 1000 for a
`k` suffix (either case) and by 1,000,000 for an `m` suffix, and takes a
plain digit string verbatim; `"1.2k"` normalizes to 1200 in both layouts.
For fractional literals the program computes `int(float(s) * mult)` under
binary64 rounding, which can fall below `number × multiplier` truncated
toward zero (e.g. `"1.001k"` → 1000); and the old layout supports only
the `k` suffix — `m`-suffixed texts are digit-stripped. -/
theorem score_suffix_normalization (minS : Int) (s : Str) (n : ℕ)
    (hall : ∀ c ∈ s, isDigitC c = true)
    (hd : digitsVal? s = some n) (hb : n * 1000000 < 2 ^ 53) :
    newScoreFromText minS (s ++ ['k']) = some ((n * 1000 : ℕ) : Int) ∧
    newScoreFromText minS (s ++ ['K']) = some ((n * 1000 : ℕ) : Int) ∧
    newScoreFromText minS (s ++ ['m']) = some ((n * 1000000 : ℕ) : Int) ∧
    newScoreFromText minS s = some ((n : ℕ) : Int) ∧
    oldVisibleScore minS (str "1.2k") = 1200 ∧
    newScoreFromText minS (str "1.2k") = some 1200 := by
  have hchars : ∀ c ∈ s, isDigitC c = true ∨ c = '.' := fun c h => Or.inl (hall c h)
  have hnok : ∀ c ∈ s, (c == 'k') = false :=
    fun c h => beq_false_of_digit (hall c h) (by decide)
  have hnom : ∀ c ∈ s, (c == 'm') = false :=
    fun c h => beq_false_of_digit (hall c h) (by decide)
  have hnoc : ∀ c ∈ s, (c == ',') = false :=
    fun c h => beq_false_of_digit (hall c h) (by decide)
  have hnod : ∀ c ∈ s, (c == '.') = false :=
    fun c h => beq_false_of_digit (hall c h) (by decide)
  have hlow : lowerStr s = s := lowerStr_fix hchars
  have hrs : removeChar s 'k' = s := removeChar_eq_self hnok
  have hrm : removeChar s 'm' = s := removeChar_eq_self hnom
  have hck : containsChar s 'k' = false := containsChar_false hnok
  have hcm : containsChar s 'm' = false := containsChar_false hnom
  have e3 : splitOnChar '.' s = [s] := splitOnChar_no_sep hnod
  have hPD : parseDecimalND s = some (n, 1) := by
    simp [parseDecimalND, e3, hd]
  have hb1000 : n * 1000 < 2 ^ 53 := by
    have := Nat.mul_le_mul_left n (show 1000 ≤ 1000000 by norm_num)
    omega
  have hex1000 : intOfFloatMul n 1 1000 = n * 1000 :=
    intOfFloatMul_int n 1000 (by norm_num) hb1000
  have hex1000000 : intOfFloatMul n 1 1000000 = n * 1000000 :=
    intOfFloatMul_int n 1000000 (by norm_num) hb
  have branchk : ∀ L : Char, asciiLower L = 'k' →
      newScoreFromText minS (s ++ [L]) = some ((n * 1000 : ℕ) : Int) := by
    intro L hL
    simp only [newScoreFromText]
    have e1 : removeChar (lowerStr (s ++ [L])) ',' = s ++ ['k'] := by
      unfold lowerStr
      rw [List.map_append, show List.map asciiLower s = lowerStr s from rfl, hlow,
        show List.map asciiLower [L] = [asciiLower L] from rfl, hL]
      refine removeChar_eq_self ?_
      intro c hc
      rcases List.mem_append.mp hc with h | h
      · exact hnoc c h
      · simp only [List.mem_singleton] at h
        subst h
        decide
    rw [e1, if_pos (containsChar_append_self s 'k'), removeChar_append, hrs,
      show removeChar ['k'] 'k' = [] from rfl, List.append_nil, hPD]
    show some ((intOfFloatMul n 1 1000 : ℕ) : Int) = some ((n * 1000 : ℕ) : Int)
    rw [hex1000]
  have branchm : newScoreFromText minS (s ++ ['m']) = some ((n * 1000000 : ℕ) : Int) := by
    simp only [newScoreFromText]
    have e1 : removeChar (lowerStr (s ++ ['m'])) ',' = s ++ ['m'] := by
      unfold lowerStr
      rw [List.map_append, show List.map asciiLower s = lowerStr s from rfl, hlow,
        show List.map asciiLower ['m'] = ['m'] from by decide]
      refine removeChar_eq_self ?_
      intro c hc
      rcases List.mem_append.mp hc with h | h
      · exact hnoc c h
      · simp only [List.mem_singleton] at h
        subst h
        decide
    have hkf : containsChar (s ++ ['m']) 'k' = false := by
      refine containsChar_false ?_
      intro c hc
      rcases List.mem_append.mp hc with h | h
      · exact hnok c h
      · simp only [List.mem_singleton] at h
        subst h
        decide
    rw [e1, if_neg (by simp [hkf]), if_pos (containsChar_append_self s 'm'),
      removeChar_append, hrm, show removeChar ['m'] 'm' = [] from rfl,
      List.append_nil, hPD]
    show some ((intOfFloatMul n 1 1000000 : ℕ) : Int) = some ((n * 1000000 : ℕ) : Int)
    rw [hex1000000]
  have branchp : newScoreFromText minS s = some ((n : ℕ) : Int) := by
    simp only [newScoreFromText]
    have e1 : removeChar (lowerStr s) ',' = s := by
      rw [hlow]
      exact removeChar_eq_self hnoc
    rw [e1, if_neg (by simp [hck]), if_neg (by simp [hcm]),
      show stripNonDigits s = s from filter_eq_self_of_all hall, hd]
  exact ⟨branchk 'k' (by decide), branchk 'K' (by decide), branchm, branchp, rfl, rfl⟩

/-- Witness for C1 amended: the digit string "12" under each suffix, and
the end-to-end example "1.2k" → 1200. -/
theorem score_suffix_normalization_witness :
    newScoreFromText 300 (str "12" ++ ['k']) = some ((12 * 1000 : ℕ) : Int) ∧
    newScoreFromText 300 (str "12" ++ ['K']) = some ((12 * 1000 : ℕ) : Int) ∧
    newScoreFromText 300 (str "12" ++ ['m']) = some ((12 * 1000000 : ℕ) : Int) ∧
    newScoreFromText 300 (str "12") = some ((12 : ℕ) : Int) ∧
    oldVisibleScore 300 (str "1.2k") = 1200 ∧
    newScoreFromText 300 (str "1.2k") = some 1200 :=
  score_suffix_normalization 300 (str "12") 12 (by decide) (by decide) (by decide)
